import Mathlib

/-!
Verification of the Smart-Retail-Analytics-Pipeline core
(normalisation.py and federation.py) against its specification.

The pandas DataFrames are shallowly embedded:
  * numeric cells are `Option ℚ` (`none` is the NaN / missing sentinel);
  * object-dtype cells are `Option OVal`, where an `OVal` is either a
    string or a number (a pandas object column may hold both);
  * calendar dates are `Int` day numbers, timestamps are `ℚ` day numbers
    (the fractional part is the time of day);
  * a table that may or may not already carry a `date` column is a pair
    of that flag and its rows, so the in-place `df['date'] = ...`
    statements of the source can be modelled by returning the
    possibly-updated table alongside the result.
-/

namespace SmartRetail

/-- A value held by a pandas object-dtype cell: a string or a number. -/
inductive OVal where
  | vstr (s : String)
  | vnum (q : ℚ)
deriving DecidableEq

/-- A DataFrame column: numeric dtype or object dtype, each cell optional
(`none` models NaN). -/
inductive Column where
  | numCol (cells : List (Option ℚ))
  | objCol (cells : List (Option OVal))
deriving DecidableEq

/-- A DataFrame for the normalisation functions: named columns. -/
abbrev NamedTable := List (String × Column)

/-! ## normalisation.py -/

/-- Value of a digit string (most significant first). -/
def digitsVal (cs : List Char) : Nat :=
  cs.foldl (fun n c => 10 * n + (c.toNat - '0'.toNat)) 0

/-- Python `float(s)` restricted to plain decimal literals, as used on the
values handled by this pipeline: optional sign, digits, optional single
decimal point.  Anything else fails (`none`). -/
def parseFloat (s : String) : Option ℚ :=
  let signed : ℚ × List Char :=
    match s.toList with
    | '-' :: rest => (-1, rest)
    | '+' :: rest => (1, rest)
    | cs => (1, cs)
  let ipart := (signed.2.span Char.isDigit).1
  let rest := (signed.2.span Char.isDigit).2
  match rest with
  | [] => if ipart.isEmpty then none else some (signed.1 * (digitsVal ipart : ℚ))
  | '.' :: fpart =>
      if fpart.all Char.isDigit && (!ipart.isEmpty || !fpart.isEmpty) then
        some (signed.1 *
          ((digitsVal ipart : ℚ) + (digitsVal fpart : ℚ) / ((10 : ℚ) ^ fpart.length)))
      else none
  | _ => none

/-- The regex replacement of `clean_currency`: drop every `$`, `€`, `,`. -/
def stripCurrency (s : String) : String :=
  String.mk (s.toList.filter (fun c => !(c == '$' || c == '€' || c == ',')))

/-- `'$' in str(cell)`: only a string cell can contain a dollar sign
(`str` of NaN or of a number never does). -/
def strHasDollar : Option OVal → Bool
  | some (.vstr s) => s.toList.contains '$'
  | _ => false

/-- `clean_currency(series)` (normalisation.py): `.str.replace(r'[\$€,]','')`
turns non-string cells into NaN and strips the symbols from string cells;
`.astype(float)` then raises (result `none`) if any remaining string fails
to parse, and otherwise converts the column to floats. -/
def cleanCurrency (cells : List (Option OVal)) : Option (List (Option ℚ)) :=
  let stripped : List (Option String) := cells.map (fun c =>
    match c with
    | some (.vstr s) => some (stripCurrency s)
    | _ => none)
  if stripped.all (fun c =>
      match c with
      | none => true
      | some s => (parseFloat s).isSome) then
    some (stripped.map (fun c => c.bind parseFloat))
  else none

/-- The per-column body of `normalize_numeric` (normalisation.py lines
68-78): on an object column whose first cell's string form contains `$`,
apply `clean_currency` (an exception leaves the column unmodified);
otherwise `pd.to_numeric(..., errors='coerce')`.  An empty column makes
`.iloc[0]` raise, which the `except` swallows, leaving the column as is.
A column that is already numeric is returned unchanged by `to_numeric`. -/
def normalizeNumericCol : Column → Column
  | .numCol cs => .numCol cs
  | .objCol cs =>
    match cs.head? with
    | none => .objCol cs
    | some c0 =>
      if strHasDollar c0 then
        match cleanCurrency cs with
        | some qs => .numCol qs
        | none => .objCol cs
      else
        .numCol (cs.map (fun c =>
          match c with
          | some (.vstr s) => parseFloat s
          | some (.vnum q) => some q
          | none => none))

/-- `normalize_numeric(df, numeric_columns)`: each named column that exists
in the table is converted in sequence; absent names are skipped. -/
def normalizeNumeric (t : NamedTable) (numericColumns : List String) : NamedTable :=
  numericColumns.foldl (fun acc name =>
    acc.map (fun nc => if nc.1 = name then (nc.1, normalizeNumericCol nc.2) else nc)) t

/-- Count of missing cells in one column (`df[col].isnull().sum()`). -/
def Column.missingCount : Column → Nat
  | .numCol cs => (cs.filter (fun c => c.isNone)).length
  | .objCol cs => (cs.filter (fun c => c.isNone)).length

/-- `df.isnull().sum().sum()`. -/
def tableMissing (t : NamedTable) : Nat :=
  (t.map (fun nc => nc.2.missingCount)).sum

/-- Whether row `i` of a column is missing (rows past the end count as
missing; the embedded tables are rectangular so this never matters). -/
def Column.isMissingAt : Column → Nat → Bool
  | .numCol cs, i => (cs.getD i none).isNone
  | .objCol cs, i => (cs.getD i none).isNone

/-- Whether row `i` of the table has a missing cell in some column. -/
def rowHasMissing (t : NamedTable) (i : Nat) : Bool :=
  t.any (fun nc => nc.2.isMissingAt i)

/-- Keep the rows whose index satisfies `p`. -/
def filterIdx {α : Type} (p : Nat → Bool) (l : List α) : List α :=
  (l.enum.filter (fun x => p x.1)).map (fun x => x.2)

/-- Restrict a column to the rows whose index satisfies `p`. -/
def Column.keepRows (c : Column) (p : Nat → Bool) : Column :=
  match c with
  | .numCol cs => .numCol (filterIdx p cs)
  | .objCol cs => .objCol (filterIdx p cs)

/-- `df.dropna()`: remove every row that has a missing cell anywhere. -/
def dropnaTable (t : NamedTable) : NamedTable :=
  t.map (fun nc => (nc.1, nc.2.keepRows (fun i => !rowHasMissing t i)))

/-- `df.fillna(0)` on one column (an object column receives the number 0). -/
def Column.fillZero : Column → Column
  | .numCol cs => .numCol (cs.map (fun c => some (c.getD 0)))
  | .objCol cs => .objCol (cs.map (fun c => some (c.getD (OVal.vnum 0))))

/-- `series.mean()`: mean of the non-missing cells, NaN when there are
none. -/
def colMean (cs : List (Option ℚ)) : Option ℚ :=
  let xs := cs.filterMap id
  if xs.isEmpty then none else some (xs.sum / (xs.length : ℚ))

/-- `series.median()`: median of the non-missing cells, NaN when there are
none. -/
def colMedian (cs : List (Option ℚ)) : Option ℚ :=
  let xs := List.insertionSort (· ≤ ·) (cs.filterMap id)
  if xs.isEmpty then none
  else if xs.length % 2 = 1 then some (xs.getD (xs.length / 2) 0)
  else some ((xs.getD (xs.length / 2 - 1) 0 + xs.getD (xs.length / 2) 0) / 2)

/-- `cell.fillna(v)` for one cell: `fillna` with NaN leaves the cell as it
is, otherwise a missing cell receives `v`. -/
def fillCell (v : Option ℚ) (c : Option ℚ) : Option ℚ :=
  match v with
  | none => c
  | some m => some (c.getD m)

/-- `series.fillna(v)`. -/
def fillWith (v : Option ℚ) (cs : List (Option ℚ)) : List (Option ℚ) :=
  cs.map (fillCell v)

/-- The `mean`/`median` branch of `handle_missing_values` on one column:
only numeric columns are touched, and only when they have a null
(`if df[col].isnull().any()`); the fill value is the column's own mean or
median. -/
def Column.fillStat (strategy : String) : Column → Column
  | .numCol cs =>
      if cs.any (fun c => c.isNone) then
        .numCol (fillWith (if strategy = "mean" then colMean cs else colMedian cs) cs)
      else .numCol cs
  | .objCol cs => .objCol cs

/-- `handle_missing_values(df, strategy)` (normalisation.py lines 83-115):
no-op on a table without missing cells; `drop` removes rows with a null;
`zero` fills every null with 0; `mean`/`median` fill each numeric column
from its own statistic; any other strategy string falls through every
branch and the copy is returned unchanged. -/
def handleMissingValues (t : NamedTable) (strategy : String) : NamedTable :=
  if tableMissing t = 0 then t
  else if strategy = "drop" then dropnaTable t
  else if strategy = "zero" then t.map (fun nc => (nc.1, nc.2.fillZero))
  else if strategy = "mean" ∨ strategy = "median" then
    t.map (fun nc => (nc.1, nc.2.fillStat strategy))
  else t

/-! ## federation.py -/

/-- A normalised order row (one commercial transaction).  `date` is the
derived calendar-date column; whether the table actually carries it is
recorded on `OrdersTable`. -/
structure OrderRow where
  order_id : Nat
  product_id : Nat
  order_date : Int
  quantity : ℚ
  total_amount : ℚ
  country : String
  date : Int
deriving DecidableEq

/-- The orders DataFrame: its rows plus whether a `date` column exists
(`'date' in orders.columns`).  When `hasDate` is false the `date` field of
the rows is meaningless until the join engine writes it. -/
structure OrdersTable where
  hasDate : Bool
  rows : List OrderRow
deriving DecidableEq

/-- A normalised marketing-campaign row. -/
structure CampaignRow where
  campaign_name : String
  product_id : Nat
  start_date : Int
  end_date : Int
deriving DecidableEq

/-- A normalised web-traffic row (counts may be NaN after coercion). -/
structure TrafficRow where
  date : Int
  pageviews : Option ℚ
  sessions : Option ℚ
deriving DecidableEq

/-- A normalised IoT row; `timestamp` is a day number with a fractional
time of day, `date` the derived calendar date. -/
structure IotRow where
  timestamp : ℚ
  footfall : Option ℚ
  temperature : Option ℚ
  date : Int
deriving DecidableEq

/-- The IoT DataFrame with its `'date' in iot.columns` flag. -/
structure IotTable where
  hasDate : Bool
  rows : List IotRow
deriving DecidableEq

/-- A row of `orders.merge(marketing, on='product_id', how='left')` with
the two computed columns.  Campaign fields are `Option`s because an order
without a matching campaign gets NaN there. -/
structure MergedRow1 extends OrderRow where
  campaign_name : Option String
  start_date : Option Int
  end_date : Option Int
  in_campaign : Bool
deriving DecidableEq

/-- The left merge on `product_id`: each order row, in order, paired with
every campaign row of the same product in campaign order; an order with no
match yields a single row with NaN campaign fields.  The two computed
columns are filled in afterwards, so `in_campaign` starts out false.
`emitOrder` is the contribution of one left row. -/
def emitOrder (marketing : List CampaignRow) (o : OrderRow) : List MergedRow1 :=
  let ms := marketing.filter (fun c => c.product_id == o.product_id)
  if ms.isEmpty then
    [{ toOrderRow := o, campaign_name := none, start_date := none,
       end_date := none, in_campaign := false }]
  else
    ms.map (fun c =>
      { toOrderRow := o, campaign_name := some c.campaign_name,
        start_date := some c.start_date, end_date := some c.end_date,
        in_campaign := false })

def joinOM (orders : List OrderRow) (marketing : List CampaignRow) : List MergedRow1 :=
  orders.flatMap (emitOrder marketing)

/-- `date >= start_date` with pandas NaT semantics: comparing with NaT is
false. -/
def dateGe (d : Int) (s : Option Int) : Bool :=
  match s with
  | some s' => decide (s' ≤ d)
  | none => false

/-- `date <= end_date` with pandas NaT semantics. -/
def dateLe (d : Int) (e : Option Int) : Bool :=
  match e with
  | some e' => decide (d ≤ e')
  | none => false

/-- `merged['in_campaign'] = (date >= start_date) & (date <= end_date)`. -/
def setInCampaign (r : MergedRow1) : MergedRow1 :=
  { r with in_campaign := dateGe r.date r.start_date && dateLe r.date r.end_date }

/-- `merged['campaign_name'] = ... if row['in_campaign'] else 'No Campaign'`. -/
def rewriteName (r : MergedRow1) : MergedRow1 :=
  { r with campaign_name := if r.in_campaign then r.campaign_name else some "No Campaign" }

/-- `merge_orders_marketing` (federation.py lines 17-58).  If the orders
table has no `date` column one is written in place from `order_date`; the
possibly-updated input is returned alongside the merge result. -/
def mergeOrdersMarketing (orders : OrdersTable) (marketing : List CampaignRow) :
    OrdersTable × List MergedRow1 :=
  let orders' := if orders.hasDate then orders
    else { hasDate := true, rows := orders.rows.map (fun r => { r with date := r.order_date }) }
  (orders', ((joinOM orders'.rows marketing).map setInCampaign).map rewriteName)

/-- Distinct keys in ascending order, as `groupby` produces them. -/
def sortedDedup {α : Type} [LinearOrder α] (l : List α) : List α :=
  List.insertionSort (· ≤ ·) l.dedup

/-- A row of `web_traffic.groupby('date').agg(sum).reset_index()`.  A sum
over missing cells skips them (an all-NaN group sums to 0). -/
structure TrafficAggRow where
  date : Int
  pageviews : ℚ
  sessions : ℚ
deriving DecidableEq

/-- The per-date traffic aggregate. -/
def webAgg (webTraffic : List TrafficRow) : List TrafficAggRow :=
  (sortedDedup (webTraffic.map (·.date))).map (fun d =>
    let g := webTraffic.filter (fun r => r.date == d)
    { date := d, pageviews := (g.filterMap (·.pageviews)).sum,
      sessions := (g.filterMap (·.sessions)).sum })

/-- `astype(int)`: float-to-int conversion truncates toward zero. -/
def ratTrunc (q : ℚ) : Int := q.num / (q.den : Int)

/-- A row after `merge_with_web_traffic`: traffic columns are zero-filled
and cast to integers. -/
structure MergedRow2 extends MergedRow1 where
  pageviews : Int
  sessions : Int
deriving DecidableEq

/-- `merge_with_web_traffic` (federation.py lines 61-94): left join on the
per-date aggregate, then `fillna(0).astype(int)` on both traffic columns. -/
def mergeWithWebTraffic (data : List MergedRow1) (webTraffic : List TrafficRow) :
    List MergedRow2 :=
  let agg := webAgg webTraffic
  data.map (fun r =>
    let hit := agg.find? (fun a => a.date == r.date)
    { toMergedRow1 := r,
      pageviews := ratTrunc ((hit.map (·.pageviews)).getD 0),
      sessions := ratTrunc ((hit.map (·.sessions)).getD 0) })

/-- A row of `iot.groupby('date').agg(mean).reset_index()`: a date whose
readings are all NaN keeps NaN means. -/
structure IotAggRow where
  date : Int
  footfall : Option ℚ
  temperature : Option ℚ
deriving DecidableEq

/-- The per-date IoT aggregate. -/
def iotAgg (iot : List IotRow) : List IotAggRow :=
  (sortedDedup (iot.map (·.date))).map (fun d =>
    let g := iot.filter (fun r => r.date == d)
    { date := d, footfall := colMean (g.map (·.footfall)),
      temperature := colMean (g.map (·.temperature)) })

/-- A fully federated row (the Unified Sales Record). -/
structure MergedRow3 extends MergedRow2 where
  footfall : Option ℚ
  temperature : Option ℚ
deriving DecidableEq

/-- The left join of `merge_with_iot` before the fill step: a date absent
from the aggregate yields NaN sensor columns. -/
def iotJoin (data : List MergedRow2) (iot : List IotRow) : List MergedRow3 :=
  let agg := iotAgg iot
  data.map (fun r =>
    match agg.find? (fun a => a.date == r.date) with
    | some a => { toMergedRow2 := r, footfall := a.footfall, temperature := a.temperature }
    | none => { toMergedRow2 := r, footfall := none, temperature := none })

/-- `merged[c] = merged[c].fillna(merged[c].mean())` for both sensor
columns: the fill value is the mean of the merged column itself. -/
def iotFill (j : List MergedRow3) : List MergedRow3 :=
  let fMean := colMean (j.map (·.footfall))
  let tMean := colMean (j.map (·.temperature))
  j.map (fun r =>
    { r with footfall := fillCell fMean r.footfall,
             temperature := fillCell tMean r.temperature })

/-- `merge_with_iot` (federation.py lines 97-135).  If the IoT table has
no `date` column one is written in place from the timestamp's calendar
day; the possibly-updated input is returned alongside the result. -/
def mergeWithIot (data : List MergedRow2) (iot : IotTable) :
    IotTable × List MergedRow3 :=
  let iot' := if iot.hasDate then iot
    else { hasDate := true, rows := iot.rows.map (fun r => { r with date := Rat.floor r.timestamp }) }
  (iot', iotFill (iotJoin data iot'.rows))

/-- Result of `federate_all`: the two possibly-updated inputs and the
Unified Sales Record table. -/
structure FedResult where
  ordersAfter : OrdersTable
  iotAfter : IotTable
  unified : List MergedRow3
deriving DecidableEq

/-- `federate_all` (federation.py lines 200-232), restricted to the joins
(the aggregations are separate functions below). -/
def federateAll (orders : OrdersTable) (marketing : List CampaignRow)
    (webTraffic : List TrafficRow) (iot : IotTable) : FedResult :=
  let om := mergeOrdersMarketing orders marketing
  let m2 := mergeWithWebTraffic om.2 webTraffic
  let mi := mergeWithIot m2 iot
  { ordersAfter := om.1, iotAfter := mi.1, unified := mi.2 }

/-- A row of the by-product rollup. -/
structure ProductAggRow where
  product_id : Nat
  total_amount : ℚ
  quantity : ℚ
  order_count : Nat
deriving DecidableEq

/-- A row of the by-country rollup. -/
structure CountryAggRow where
  country : String
  total_amount : ℚ
  quantity : ℚ
  order_count : Nat
deriving DecidableEq

instance : DecidableRel (fun a b : ProductAggRow => b.total_amount ≤ a.total_amount) :=
  fun a b => inferInstanceAs (Decidable (b.total_amount ≤ a.total_amount))

instance : DecidableRel (fun a b : CountryAggRow => b.total_amount ≤ a.total_amount) :=
  fun a b => inferInstanceAs (Decidable (b.total_amount ≤ a.total_amount))

/-- `aggregations['product_sales']` (federation.py lines 176-182): group
the full unified table by product, sum amount and quantity, count orders,
sort descending by summed amount. -/
def productSales (data : List MergedRow3) : List ProductAggRow :=
  let grouped := (sortedDedup (data.map (·.product_id))).map (fun k =>
    let g := data.filter (fun r => r.product_id == k)
    { product_id := k, total_amount := (g.map (·.total_amount)).sum,
      quantity := (g.map (·.quantity)).sum, order_count := g.length })
  List.insertionSort (fun a b => b.total_amount ≤ a.total_amount) grouped

/-- `aggregations['country_sales']` (federation.py lines 186-193). -/
def countrySales (data : List MergedRow3) : List CountryAggRow :=
  let grouped := (sortedDedup (data.map (·.country))).map (fun k =>
    let g := data.filter (fun r => r.country == k)
    { country := k, total_amount := (g.map (·.total_amount)).sum,
      quantity := (g.map (·.quantity)).sum, order_count := g.length })
  List.insertionSort (fun a b => b.total_amount ≤ a.total_amount) grouped

/-- The hypothesis of claim C1, formalised: no product has two campaigns
whose inclusive windows overlap. -/
def noOverlappingWindows : List CampaignRow → Bool
  | [] => true
  | c :: rest =>
      rest.all (fun c' => (c.product_id != c'.product_id)
        || decide (c.end_date < c'.start_date) || decide (c'.end_date < c.start_date))
      && noOverlappingWindows rest

/-- Modelled from the spec: the fill value claim C2 asserts — the global
mean of `footfall` across all dates present in the per-date IoT aggregate,
one value per date, not weighted by order rows.  This is the comparison
target; the code's own fill value is `colMean` of the merged column. -/
def specIotDateMeanFootfall (iot : List IotRow) : Option ℚ :=
  colMean ((iotAgg iot).map (·.footfall))

/-- Concrete merged table for claim C2: two order rows on date 0, one on
date 1, one on date 2 (traffic columns already zero-filled). -/
def exC2data : List MergedRow2 :=
  [⟨⟨⟨1, 1, 0, 1, 10, "FR", 0⟩, none, none, none, false⟩, 0, 0⟩,
   ⟨⟨⟨2, 1, 0, 1, 10, "FR", 0⟩, none, none, none, false⟩, 0, 0⟩,
   ⟨⟨⟨3, 1, 1, 1, 10, "FR", 1⟩, none, none, none, false⟩, 0, 0⟩,
   ⟨⟨⟨4, 1, 2, 1, 10, "FR", 2⟩, none, none, none, false⟩, 0, 0⟩]

/-- Concrete IoT table for claim C2: footfall 10 on date 0, footfall 20 on
date 1, nothing on date 2. -/
def exC2iot : IotTable :=
  ⟨true, [⟨0, some 10, some 0, 0⟩, ⟨1, some 20, some 0, 1⟩]⟩

/-! ## General lemmas about the embedded operations -/

lemma mem_sortedDedup {α : Type} [LinearOrder α] {a : α} {l : List α} :
    a ∈ sortedDedup l ↔ a ∈ l := by
  unfold sortedDedup
  rw [(List.perm_insertionSort _ _).mem_iff, List.mem_dedup]

lemma nodup_sortedDedup {α : Type} [LinearOrder α] (l : List α) :
    (sortedDedup l).Nodup :=
  (List.perm_insertionSort _ _).symm.nodup (List.nodup_dedup l)

lemma sum_map_insertionSort {α : Type} (r : α → α → Prop) [DecidableRel r]
    (l : List α) (f : α → ℚ) :
    ((List.insertionSort r l).map f).sum = (l.map f).sum :=
  ((List.perm_insertionSort r l).map f).sum_eq

lemma sum_map_filter_partition {α : Type} (l : List α) (p : α → Bool) (f : α → ℚ) :
    ((l.filter p).map f).sum + ((l.filter (fun a => !p a)).map f).sum = (l.map f).sum := by
  induction l with
  | nil => simp
  | cons a l ih => cases hp : p a <;> simp [hp, ← ih] <;> ring

/-- Summing group sums over a duplicate-free key list that covers every
row gives the sum over all rows. -/
lemma sum_groups {α κ : Type} [BEq κ] [LawfulBEq κ] (key : α → κ) (f : α → ℚ) :
    ∀ (ks : List κ) (l : List α), ks.Nodup → (∀ a ∈ l, key a ∈ ks) →
      (ks.map (fun k => ((l.filter (fun a => key a == k)).map f).sum)).sum
        = (l.map f).sum := by
  intro ks
  induction ks with
  | nil =>
    intro l _ hcov
    have hl : l = [] := by
      cases l with
      | nil => rfl
      | cons a t => exact absurd (hcov a (by simp)) (by simp)
    simp [hl]
  | cons k ks ih =>
    intro l hnd hcov
    have hknotin : k ∉ ks := (List.nodup_cons.mp hnd).1
    have hnd' : ks.Nodup := (List.nodup_cons.mp hnd).2
    have hsplit : ∀ k' ∈ ks,
        l.filter (fun a => key a == k')
          = (l.filter (fun a => !(key a == k))).filter (fun a => key a == k') := by
      intro k' hk'
      rw [List.filter_filter]
      apply List.filter_congr
      intro a _
      cases hak : key a == k' with
      | false => simp
      | true =>
        have : key a = k' := by simpa using hak
        have : ¬(key a == k) = true := by
          simp only [beq_iff_eq, this]
          intro he
          exact hknotin (he ▸ hk')
        simp [Bool.not_eq_true] at this
        simp [this]
    have hmapc :
        (ks.map (fun k' => ((l.filter (fun a => key a == k')).map f).sum))
          = ks.map (fun k' =>
              (((l.filter (fun a => !(key a == k))).filter (fun a => key a == k')).map f).sum) := by
      apply List.map_congr_left
      intro k' hk'
      rw [hsplit k' hk']
    have hcov' : ∀ a ∈ l.filter (fun a => !(key a == k)), key a ∈ ks := by
      intro a ha
      have hmem := List.mem_of_mem_filter ha
      have hne : ¬(key a == k) = true := by
        have := List.of_mem_filter ha
        simpa using this
      have := hcov a hmem
      rcases List.mem_cons.mp this with h | h
      · exact absurd (by simpa using h) (by simpa using hne)
      · exact h
    calc ((k :: ks).map (fun k' => ((l.filter (fun a => key a == k')).map f).sum)).sum
        = ((l.filter (fun a => key a == k)).map f).sum
            + (ks.map (fun k' => ((l.filter (fun a => key a == k')).map f).sum)).sum := by
          simp
      _ = ((l.filter (fun a => key a == k)).map f).sum
            + ((l.filter (fun a => !(key a == k))).map f).sum := by
          rw [hmapc, ih _ hnd' hcov']
      _ = (l.map f).sum := sum_map_filter_partition l _ f

/-- Grouping a table by a key and summing a field conserves the total of
that field. -/
lemma rollup_sum {α κ : Type} [LinearOrder κ] [BEq κ] [LawfulBEq κ]
    (key : α → κ) (f : α → ℚ) (data : List α) :
    ((sortedDedup (data.map key)).map
        (fun k => ((data.filter (fun a => key a == k)).map f).sum)).sum
      = (data.map f).sum := by
  apply sum_groups
  · exact nodup_sortedDedup _
  · intro a ha
    exact mem_sortedDedup.mpr (List.mem_map_of_mem key ha)

/-! ## Claim theorems -/

/-- Claim C4: the join engine, as composed by `federate_all`, never
modifies any of its normalized input tables in place.  A normalized orders
table and a normalized IoT table carry their derived `date` column
(normalisation.py lines 133 and 196), so the two guarded in-place column
writes do not fire and both inputs come back unchanged; every stage builds
a new table, and in this pure embedding identical inputs trivially yield
identical outputs. -/
theorem claim4_join_engine_pure (orders : OrdersTable) (marketing : List CampaignRow)
    (webTraffic : List TrafficRow) (iot : IotTable)
    (h1 : orders.hasDate = true) (h2 : iot.hasDate = true) :
    (federateAll orders marketing webTraffic iot).ordersAfter = orders ∧
      (federateAll orders marketing webTraffic iot).iotAfter = iot := by
  constructor <;> simp [federateAll, mergeOrdersMarketing, mergeWithIot, h1, h2]

/-- Witness for C4 at a concrete normalized input. -/
theorem claim4_join_engine_pure_witness :
    (federateAll ⟨true, [⟨1, 10, 5, 2, 100, "FR", 5⟩]⟩ [⟨"Jan Sale", 10, 1, 31⟩]
        [⟨5, some 500, some 40⟩] ⟨true, [⟨7, some 30, some 22, 7⟩]⟩).ordersAfter
      = ⟨true, [⟨1, 10, 5, 2, 100, "FR", 5⟩]⟩ ∧
    (federateAll ⟨true, [⟨1, 10, 5, 2, 100, "FR", 5⟩]⟩ [⟨"Jan Sale", 10, 1, 31⟩]
        [⟨5, some 500, some 40⟩] ⟨true, [⟨7, some 30, some 22, 7⟩]⟩).iotAfter
      = ⟨true, [⟨7, some 30, some 22, 7⟩]⟩ :=
  claim4_join_engine_pure _ _ _ _ rfl rfl

/-- Claim C10: on a table with at least one missing cell, a strategy
string outside `drop` / `zero` / `mean` / `median` falls through every
branch of `handle_missing_values` and the table comes back unchanged,
missing cells included. -/
theorem claim10_unknown_strategy_identity (t : NamedTable) (s : String)
    (hm : tableMissing t ≠ 0) (h1 : s ≠ "drop") (h2 : s ≠ "zero")
    (h3 : s ≠ "mean") (h4 : s ≠ "median") :
    handleMissingValues t s = t := by
  simp [handleMissingValues, hm, h1, h2, h3, h4]

/-- Witness for C10: strategy `"max"` on a table with a missing cell. -/
theorem claim10_unknown_strategy_identity_witness :
    handleMissingValues [("amount", Column.numCol [none, some 1])] "max"
      = [("amount", Column.numCol [none, some 1])] :=
  claim10_unknown_strategy_identity _ _ (by decide) (by decide) (by decide)
    (by decide) (by decide)

/-- Claim C9: an order whose product matches no campaign row at all still
produces exactly one output row, with NaN campaign fields, `in_campaign`
false (a comparison against NaT is never true) and `campaign_name`
rewritten to `"No Campaign"`. -/
theorem claim9_unmatched_order_single_row (o : OrderRow) (marketing : List CampaignRow)
    (h : ∀ c ∈ marketing, c.product_id ≠ o.product_id) :
    (mergeOrdersMarketing ⟨true, [o]⟩ marketing).2
      = [{ toOrderRow := o, campaign_name := some "No Campaign", start_date := none,
           end_date := none, in_campaign := false }] := by
  have hf : marketing.filter (fun c => c.product_id == o.product_id) = [] := by
    rw [List.filter_eq_nil_iff]
    intro c hc
    simpa using h c hc
  have key : joinOM [o] marketing
      = [{ toOrderRow := o, campaign_name := none, start_date := none,
           end_date := none, in_campaign := false }] := by
    simp only [joinOM, emitOrder, List.flatMap_cons, List.flatMap_nil, List.append_nil, hf,
      List.isEmpty_nil, if_true]
  show ((joinOM [o] marketing).map setInCampaign).map rewriteName = _
  rw [key]
  simp [setInCampaign, rewriteName, dateGe, dateLe]

/-- Witness for C9: one order for product 7, one campaign for product 2. -/
theorem claim9_unmatched_order_single_row_witness :
    (mergeOrdersMarketing ⟨true, [⟨1, 7, 5, 2, 100, "FR", 5⟩]⟩ [⟨"X", 2, 0, 9⟩]).2
      = [{ toOrderRow := ⟨1, 7, 5, 2, 100, "FR", 5⟩, campaign_name := some "No Campaign",
           start_date := none, end_date := none, in_campaign := false }] :=
  claim9_unmatched_order_single_row _ _ (by decide)

lemma ratTrunc_zero : ratTrunc 0 = 0 := rfl

/-- Every date carried by a row of the per-date traffic aggregate occurs
in the traffic data. -/
lemma webAgg_date_mem {webTraffic : List TrafficRow} {a : TrafficAggRow}
    (ha : a ∈ webAgg webTraffic) : a.date ∈ webTraffic.map (·.date) := by
  simp only [webAgg, List.mem_map] at ha
  obtain ⟨d, hd, rfl⟩ := ha
  exact mem_sortedDedup.mp hd

/-- Claim C7: a row whose date is absent from the traffic data gets
`pageviews = 0` and `sessions = 0` (integers, via `fillna(0).astype(int)`),
for every order row of that date. -/
theorem claim7_traffic_zero_fill (data : List MergedRow1) (webTraffic : List TrafficRow) :
    ∀ r ∈ mergeWithWebTraffic data webTraffic,
      r.date ∉ webTraffic.map (·.date) → r.pageviews = 0 ∧ r.sessions = 0 := by
  intro r hr hd
  simp only [mergeWithWebTraffic, List.mem_map] at hr
  obtain ⟨d0, _, rfl⟩ := hr
  have hdate : (webAgg webTraffic).find? (fun a => a.date == d0.date) = none := by
    rw [List.find?_eq_none]
    intro a ha
    simp only [beq_iff_eq]
    intro he
    exact hd (by simpa [he] using webAgg_date_mem ha)
  simp [hdate, ratTrunc_zero]

/-- Witness for C7: an order on date 5 while traffic exists only for
date 6. -/
theorem claim7_traffic_zero_fill_witness :
    (⟨⟨⟨1, 10, 5, 2, 100, "FR", 5⟩, none, none, none, false⟩, 0, 0⟩
        : MergedRow2).pageviews = 0 ∧
    (⟨⟨⟨1, 10, 5, 2, 100, "FR", 5⟩, none, none, none, false⟩, 0, 0⟩
        : MergedRow2).sessions = 0 :=
  claim7_traffic_zero_fill
    [⟨⟨1, 10, 5, 2, 100, "FR", 5⟩, none, none, none, false⟩]
    [⟨6, some 500, some 40⟩]
    ⟨⟨⟨1, 10, 5, 2, 100, "FR", 5⟩, none, none, none, false⟩, 0, 0⟩
    (by decide) (by decide)

/-- Claim C6: for an order paired with a campaign of its product, the
campaign window is inclusive at both ends: a date equal to `start_date` or
`end_date` gives `in_campaign = true`, while one day before the start or
one day after the end gives `in_campaign = false` and the campaign name
rewritten to `"No Campaign"`.  The hypothesis `start_date ≤ end_date` is
the campaign invariant that normalisation enforces. -/
theorem claim6_campaign_window_inclusive (o : OrderRow) (c : CampaignRow)
    (hp : c.product_id = o.product_id) (hse : c.start_date ≤ c.end_date) :
    ∃ r, (mergeOrdersMarketing ⟨true, [o]⟩ [c]).2 = [r] ∧
      r.in_campaign = (decide (c.start_date ≤ o.date) && decide (o.date ≤ c.end_date)) ∧
      ((o.date = c.start_date ∨ o.date = c.end_date) →
        r.in_campaign = true ∧ r.campaign_name = some c.campaign_name) ∧
      ((o.date = c.start_date - 1 ∨ o.date = c.end_date + 1) →
        r.in_campaign = false ∧ r.campaign_name = some "No Campaign") := by
  have hf : ([c].filter (fun c' => c'.product_id == o.product_id)) = [c] := by
    simp [hp]
  have key : joinOM [o] [c]
      = [{ toOrderRow := o, campaign_name := some c.campaign_name,
           start_date := some c.start_date, end_date := some c.end_date,
           in_campaign := false }] := by
    simp only [joinOM, emitOrder, List.flatMap_cons, List.flatMap_nil, List.append_nil, hf]
    simp
  have hout : (mergeOrdersMarketing ⟨true, [o]⟩ [c]).2
      = [rewriteName (setInCampaign
          { toOrderRow := o, campaign_name := some c.campaign_name,
            start_date := some c.start_date, end_date := some c.end_date,
            in_campaign := false })] := by
    show ((joinOM [o] [c]).map setInCampaign).map rewriteName = _
    rw [key]
    simp
  refine ⟨_, hout, ?_, ?_, ?_⟩
  · simp [setInCampaign, rewriteName, dateGe, dateLe]
  · rintro (h1 | h1) <;>
    · have h2 : c.start_date ≤ o.date := by omega
      have h3 : o.date ≤ c.end_date := by omega
      simp [setInCampaign, rewriteName, dateGe, dateLe, h2, h3]
  · rintro (h1 | h1)
    · have h2 : ¬ c.start_date ≤ o.date := by omega
      simp [setInCampaign, rewriteName, dateGe, dateLe, h2]
    · have h2 : ¬ o.date ≤ c.end_date := by omega
      simp [setInCampaign, rewriteName, dateGe, dateLe, h2]

/-- Witness for C6 at a concrete order and campaign. -/
theorem claim6_campaign_window_inclusive_witness :
    ∃ r, (mergeOrdersMarketing ⟨true, [⟨1, 10, 1, 2, 100, "FR", 1⟩]⟩ [⟨"Jan Sale", 10, 1, 31⟩]).2
        = [r] ∧
      r.in_campaign = (decide ((1 : Int) ≤ 1) && decide ((1 : Int) ≤ 31)) ∧
      (((1 : Int) = 1 ∨ (1 : Int) = 31) →
        r.in_campaign = true ∧ r.campaign_name = some "Jan Sale") ∧
      (((1 : Int) = 1 - 1 ∨ (1 : Int) = 31 + 1) →
        r.in_campaign = false ∧ r.campaign_name = some "No Campaign") :=
  claim6_campaign_window_inclusive ⟨1, 10, 1, 2, 100, "FR", 1⟩ ⟨"Jan Sale", 10, 1, 31⟩
    rfl (by decide)

/-- Claim C5: the by-product rollup, the by-country rollup and the full
Unified Sales Record table all have the same `total_amount` total: both
rollups group the whole table, and sorting only permutes rows. -/
theorem claim5_rollup_total_conservation (data : List MergedRow3) :
    ((productSales data).map (·.total_amount)).sum = (data.map (·.total_amount)).sum ∧
      ((countrySales data).map (·.total_amount)).sum = (data.map (·.total_amount)).sum := by
  constructor
  · unfold productSales
    rw [sum_map_insertionSort]
    rw [List.map_map]
    exact rollup_sum (fun r : MergedRow3 => r.product_id) (fun r => r.total_amount) data
  · unfold countrySales
    rw [sum_map_insertionSort]
    rw [List.map_map]
    exact rollup_sum (fun r : MergedRow3 => r.country) (fun r => r.total_amount) data

lemma fillCell_none (v : Option ℚ) : fillCell v none = v := by
  cases v <;> rfl

lemma filterMap_some_comp {α β : Type} (f : α → β) (l : List α) :
    List.filterMap (fun a => some (f a)) l = l.map f := by
  induction l <;> simp [*]

lemma colMean_of_ne_nil {cs : List (Option ℚ)} (h : cs.filterMap id ≠ []) :
    colMean cs = some ((cs.filterMap id).sum / ((cs.filterMap id).length : ℚ)) := by
  unfold colMean
  simp [List.isEmpty_iff, h]

lemma colMean_of_nil {cs : List (Option ℚ)} (h : cs.filterMap id = []) :
    colMean cs = none := by
  unfold colMean
  simp [h]

lemma length_filterMap_add_none (cs : List (Option ℚ)) :
    (cs.filterMap id).length + (cs.filter (fun c => c.isNone)).length = cs.length := by
  induction cs with
  | nil => rfl
  | cons c t ih => cases c <;> simp [← ih] <;> omega

lemma sum_map_getD (cs : List (Option ℚ)) (m : ℚ) :
    (cs.map (fun c => c.getD m)).sum
      = (cs.filterMap id).sum + ((cs.filter (fun c => c.isNone)).length : ℚ) * m := by
  induction cs with
  | nil => simp
  | cons c t ih => cases c <;> simp [ih] <;> ring

/-- Filling every missing cell of a column with the column's own mean does
not change the column's mean. -/
lemma colMean_fillWith_self (cs : List (Option ℚ)) :
    colMean (fillWith (colMean cs) cs) = colMean cs := by
  rcases hnil : cs.filterMap id with _ | ⟨x, xs⟩
  · rw [colMean_of_nil hnil]
    have : fillWith none cs = cs :=
      (List.map_congr_left (fun c _ => rfl)).trans (List.map_id cs)
    rw [this, colMean_of_nil hnil]
  · have hne : cs.filterMap id ≠ [] := by rw [hnil]; exact List.cons_ne_nil _ _
    rw [colMean_of_ne_nil hne]
    set S := (cs.filterMap id).sum with hS
    set n := (cs.filterMap id).length with hn
    set k := (cs.filter (fun c => c.isNone)).length with hk
    have hnpos : 0 < n := by rw [hn, hnil]; simp
    set m := S / (n : ℚ) with hm
    have hfill : fillWith (some m) cs = cs.map (fun c => some (c.getD m)) := by
      simp [fillWith, fillCell]
    rw [hfill]
    have hmap : (cs.map (fun c => some (c.getD m))).filterMap id
        = cs.map (fun c => c.getD m) := by
      rw [List.filterMap_map]
      exact filterMap_some_comp (fun c => c.getD m) cs
    have hmapne : (cs.map (fun c => some (c.getD m))).filterMap id ≠ [] := by
      rw [hmap]
      intro hcon
      have : cs = [] := by simpa using hcon
      rw [this] at hnil
      simp at hnil
    rw [colMean_of_ne_nil hmapne, hmap]
    have hsum : (cs.map (fun c => c.getD m)).sum = S + (k : ℚ) * m := by
      rw [sum_map_getD, ← hS, ← hk]
    have hlen : (cs.map (fun c => c.getD m)).length = n + k := by
      rw [List.length_map, ← length_filterMap_add_none cs, ← hn, ← hk]
    rw [hsum, hlen]
    congr 1
    have hn0 : (n : ℚ) ≠ 0 := by
      exact_mod_cast Nat.pos_iff_ne_zero.mp hnpos
    have hnk0 : ((n + k : ℕ) : ℚ) ≠ 0 := by
      have : 0 < n + k := by omega
      exact_mod_cast Nat.pos_iff_ne_zero.mp this
    rw [hm]
    push_cast at hnk0 ⊢
    field_simp
    ring

/-- The `mean` branch of `handle_missing_values` on one numeric column
keeps the column numeric and preserves its mean. -/
lemma colMean_fillStat_mean (cs : List (Option ℚ)) :
    ∃ cs', Column.fillStat "mean" (Column.numCol cs) = Column.numCol cs' ∧
      colMean cs' = colMean cs := by
  unfold Column.fillStat
  by_cases hany : cs.any (fun c => c.isNone)
  · refine ⟨fillWith (colMean cs) cs, by simp [hany], colMean_fillWith_self cs⟩
  · exact ⟨cs, by simp [hany], rfl⟩

/-- Claim C8: applying `handle_missing_values` with strategy `mean` leaves
every numeric column's mean unchanged — the mean after filling equals the
mean of the non-missing values before filling. -/
theorem claim8_mean_fill_preserves_mean (t : NamedTable) (i : Nat) (name : String)
    (cs : List (Option ℚ)) (h : t[i]? = some (name, Column.numCol cs)) :
    ∃ cs', (handleMissingValues t "mean")[i]? = some (name, Column.numCol cs') ∧
      colMean cs' = colMean cs := by
  unfold handleMissingValues
  by_cases h0 : tableMissing t = 0
  · rw [if_pos h0]
    exact ⟨cs, h, rfl⟩
  · rw [if_neg h0, if_neg (by decide : ¬ ("mean" = "drop")),
      if_neg (by decide : ¬ ("mean" = "zero")),
      if_pos (Or.inl rfl : "mean" = "mean" ∨ "mean" = "median")]
    obtain ⟨cs', hc1, hc2⟩ := colMean_fillStat_mean cs
    refine ⟨cs', ?_, hc2⟩
    rw [List.getElem?_map, h]
    simp [hc1]

/-- Witness for C8: a column with one present value and one missing cell. -/
theorem claim8_mean_fill_preserves_mean_witness :
    ∃ cs', (handleMissingValues [("amount", Column.numCol [some 1, none])] "mean")[0]?
        = some ("amount", Column.numCol cs') ∧
      colMean cs' = colMean [some 1, none] :=
  claim8_mean_fill_preserves_mean _ 0 "amount" [some 1, none] rfl

lemma emitOrder_length_of_le_one (marketing : List CampaignRow) (o : OrderRow)
    (h : (marketing.filter (fun c => c.product_id == o.product_id)).length ≤ 1) :
    (emitOrder marketing o).length = 1 := by
  unfold emitOrder
  by_cases he : (marketing.filter (fun c => c.product_id == o.product_id)).isEmpty
  · simp [he]
  · have h1 : (marketing.filter (fun c => c.product_id == o.product_id)).length ≠ 0 := by
      simpa [List.isEmpty_iff, List.length_eq_zero] using he
    simp only [he, if_false, Bool.false_eq_true, List.length_map]
    omega

lemma joinOM_length (orders : List OrderRow) (marketing : List CampaignRow)
    (h : ∀ o ∈ orders,
      (marketing.filter (fun c => c.product_id == o.product_id)).length ≤ 1) :
    (joinOM orders marketing).length = orders.length := by
  unfold joinOM
  induction orders with
  | nil => rfl
  | cons o os ih =>
    rw [List.flatMap_cons, List.length_append,
      emitOrder_length_of_le_one marketing o (h o (by simp)),
      ih (fun o' ho' => h o' (by simp [ho']))]
    rw [List.length_cons]
    omega

lemma mergeWithWebTraffic_length (data : List MergedRow1) (webTraffic : List TrafficRow) :
    (mergeWithWebTraffic data webTraffic).length = data.length := by
  simp [mergeWithWebTraffic]

lemma iotJoin_length (data : List MergedRow2) (iot : List IotRow) :
    (iotJoin data iot).length = data.length := by
  simp [iotJoin]

lemma iotFill_length (j : List MergedRow3) : (iotFill j).length = j.length := by
  simp [iotFill]

lemma mergeWithIot_snd_length (data : List MergedRow2) (iot : IotTable) :
    (mergeWithIot data iot).2.length = data.length := by
  simp [mergeWithIot, iotFill_length, iotJoin_length]

/-- Claim C1 is false as stated: the merge key is only `product_id`, so a
product with two campaigns fans out even when their windows are disjoint.
One order for product 1 and two non-overlapping campaigns for product 1
give a Unified Sales Record with 2 rows for 1 order row. -/
theorem claim1_counterexample :
    noOverlappingWindows [⟨"A", 1, 0, 10⟩, ⟨"B", 1, 20, 30⟩] = true ∧
    (federateAll ⟨true, [⟨1, 1, 5, 1, 10, "FR", 5⟩]⟩
        [⟨"A", 1, 0, 10⟩, ⟨"B", 1, 20, 30⟩] [] ⟨true, []⟩).unified.length = 2 ∧
    (⟨true, [⟨1, 1, 5, 1, 10, "FR", 5⟩]⟩ : OrdersTable).rows.length = 1 := by
  refine ⟨by decide, ?_, by decide⟩
  decide

/-- Claim C1, amended: the Unified Sales Record has exactly as many rows
as the orders table whenever every order's product matches at most one
campaign row (rather than merely having no overlapping windows); the
traffic and IoT joins always preserve the row count. -/
theorem claim1_amended_row_count (orders : OrdersTable) (marketing : List CampaignRow)
    (webTraffic : List TrafficRow) (iot : IotTable) (hd : orders.hasDate = true)
    (h : ∀ o ∈ orders.rows,
      (marketing.filter (fun c => c.product_id == o.product_id)).length ≤ 1) :
    (federateAll orders marketing webTraffic iot).unified.length = orders.rows.length := by
  have h1 : (mergeOrdersMarketing orders marketing).2.length = orders.rows.length := by
    unfold mergeOrdersMarketing
    simp [hd, joinOM_length orders.rows marketing h]
  calc (federateAll orders marketing webTraffic iot).unified.length
      = (mergeWithWebTraffic (mergeOrdersMarketing orders marketing).2 webTraffic).length := by
        unfold federateAll
        exact mergeWithIot_snd_length _ _
    _ = (mergeOrdersMarketing orders marketing).2.length :=
        mergeWithWebTraffic_length _ _
    _ = orders.rows.length := h1

/-- Witness for the amended C1: one order, one matching campaign, one
unmatched campaign for another product. -/
theorem claim1_amended_row_count_witness :
    (federateAll ⟨true, [⟨1, 10, 5, 2, 100, "FR", 5⟩]⟩
        [⟨"Jan Sale", 10, 1, 31⟩, ⟨"Other", 11, 1, 31⟩]
        [⟨5, some 500, some 40⟩] ⟨true, [⟨7, some 30, some 22, 7⟩]⟩).unified.length
      = (⟨true, [⟨1, 10, 5, 2, 100, "FR", 5⟩]⟩ : OrdersTable).rows.length :=
  claim1_amended_row_count _ _ _ _ rfl (by decide)

/-- Every date carried by a row of the per-date IoT aggregate occurs in
the IoT data. -/
lemma iotAgg_date_mem {iot : List IotRow} {a : IotAggRow}
    (ha : a ∈ iotAgg iot) : a.date ∈ iot.map (·.date) := by
  simp only [iotAgg, List.mem_map] at ha
  obtain ⟨d, hd, rfl⟩ := ha
  exact mem_sortedDedup.mp hd

/-- Claim C2 is false as stated: `merge_with_iot` fills a missing date
with `merged['footfall'].mean()`, the mean of the merged column — weighted
by how many order rows fall on each date — not the unweighted mean over
the dates of the per-date IoT aggregate.  With footfall 10 on date 0
(carrying two orders) and 20 on date 1 (one order), the order on date 2 is
filled with (10+10+20)/3 = 40/3, while the per-date aggregate mean is 15. -/
theorem claim2_counterexample :
    (2 : Int) ∉ exC2iot.rows.map (·.date) ∧
    ((mergeWithIot exC2data exC2iot).2.map (fun r => (r.date, r.footfall)))
      = [(0, some 10), (0, some 10), (1, some 20), (2, some ((40 : ℚ)/3))] ∧
    specIotDateMeanFootfall exC2iot.rows = some 15 ∧
    some ((40 : ℚ)/3) ≠ some (15 : ℚ) := by
  have hagg : iotAgg exC2iot.rows = [⟨0, some 10, some 0⟩, ⟨1, some 20, some 0⟩] := by
    have h10 : colMean [some 10] = some 10 := by
      rw [colMean_of_ne_nil (by decide),
        show List.filterMap id [some (10:ℚ)] = [10] from by decide]
      norm_num
    have h20 : colMean [some 20] = some 20 := by
      rw [colMean_of_ne_nil (by decide),
        show List.filterMap id [some (20:ℚ)] = [20] from by decide]
      norm_num
    have h0 : colMean [some 0] = some 0 := by
      rw [colMean_of_ne_nil (by decide),
        show List.filterMap id [some (0:ℚ)] = [0] from by decide]
      norm_num
    have hsd : sortedDedup [(0:Int), 1] = [0, 1] := by decide
    simp [iotAgg, exC2iot, hsd, h10, h20, h0]
  have hjoin : iotJoin exC2data exC2iot.rows
      = [⟨⟨⟨⟨1, 1, 0, 1, 10, "FR", 0⟩, none, none, none, false⟩, 0, 0⟩, some 10, some 0⟩,
         ⟨⟨⟨⟨2, 1, 0, 1, 10, "FR", 0⟩, none, none, none, false⟩, 0, 0⟩, some 10, some 0⟩,
         ⟨⟨⟨⟨3, 1, 1, 1, 10, "FR", 1⟩, none, none, none, false⟩, 0, 0⟩, some 20, some 0⟩,
         ⟨⟨⟨⟨4, 1, 2, 1, 10, "FR", 2⟩, none, none, none, false⟩, 0, 0⟩, none, none⟩] := by
    simp [iotJoin, hagg, exC2data]
  have hcolf : colMean ((iotJoin exC2data exC2iot.rows).map (fun r => r.footfall))
      = some (40/3) := by
    rw [hjoin]
    rw [show ([⟨⟨⟨⟨1, 1, 0, 1, 10, "FR", 0⟩, none, none, none, false⟩, 0, 0⟩, some 10, some 0⟩,
         ⟨⟨⟨⟨2, 1, 0, 1, 10, "FR", 0⟩, none, none, none, false⟩, 0, 0⟩, some 10, some 0⟩,
         ⟨⟨⟨⟨3, 1, 1, 1, 10, "FR", 1⟩, none, none, none, false⟩, 0, 0⟩, some 20, some 0⟩,
         ⟨⟨⟨⟨4, 1, 2, 1, 10, "FR", 2⟩, none, none, none, false⟩, 0, 0⟩, none, none⟩]
         : List MergedRow3).map (fun r => r.footfall)
       = [some 10, some 10, some 20, none] from rfl]
    rw [colMean_of_ne_nil (by decide),
      show List.filterMap id [some (10:ℚ), some 10, some 20, none] = [10, 10, 20] from by decide]
    norm_num
  have hcolt : colMean ((iotJoin exC2data exC2iot.rows).map (fun r => r.temperature))
      = some 0 := by
    rw [hjoin]
    rw [show ([⟨⟨⟨⟨1, 1, 0, 1, 10, "FR", 0⟩, none, none, none, false⟩, 0, 0⟩, some 10, some 0⟩,
         ⟨⟨⟨⟨2, 1, 0, 1, 10, "FR", 0⟩, none, none, none, false⟩, 0, 0⟩, some 10, some 0⟩,
         ⟨⟨⟨⟨3, 1, 1, 1, 10, "FR", 1⟩, none, none, none, false⟩, 0, 0⟩, some 20, some 0⟩,
         ⟨⟨⟨⟨4, 1, 2, 1, 10, "FR", 2⟩, none, none, none, false⟩, 0, 0⟩, none, none⟩]
         : List MergedRow3).map (fun r => r.temperature)
       = [some 0, some 0, some 0, none] from rfl]
    rw [colMean_of_ne_nil (by decide),
      show List.filterMap id [some (0:ℚ), some 0, some 0, none] = [0, 0, 0] from by decide]
    norm_num
  refine ⟨by decide, ?_, ?_, by norm_num⟩
  · show ((iotFill (iotJoin exC2data exC2iot.rows)).map (fun r => (r.date, r.footfall))) = _
    simp only [iotFill]
    rw [hcolf, hcolt, hjoin]
    norm_num [fillCell]
  · unfold specIotDateMeanFootfall
    rw [hagg]
    rw [show ([⟨0, some 10, some 0⟩, ⟨1, some 20, some 0⟩] : List IotAggRow).map
        (fun a => a.footfall) = [some 10, some 20] from rfl]
    rw [colMean_of_ne_nil (by decide),
      show List.filterMap id [some (10:ℚ), some 20] = [10, 20] from by decide]
    norm_num

/-- Claim C2, amended: a calendar date absent from the IoT data has its
`footfall`/`temperature` filled with the mean of the corresponding column
of the merged table itself — the per-date means weighted by the number of
order rows on each date — and stays missing when that column has no value
at all. -/
theorem claim2_amended_iot_mean_fill (data : List MergedRow2) (iot : IotTable)
    (hd : iot.hasDate = true) :
    ∀ r ∈ (mergeWithIot data iot).2, r.date ∉ iot.rows.map (·.date) →
      r.footfall = colMean ((iotJoin data iot.rows).map (·.footfall)) ∧
      r.temperature = colMean ((iotJoin data iot.rows).map (·.temperature)) := by
  intro r hr hmem
  simp only [mergeWithIot, hd, if_true] at hr
  simp only [iotFill, List.mem_map] at hr
  obtain ⟨j0, hj0, rfl⟩ := hr
  simp only [iotJoin, List.mem_map] at hj0
  obtain ⟨d0, _, rfl⟩ := hj0
  rcases hcase : (iotAgg iot.rows).find? (fun a => a.date == d0.date) with _ | a
  · simp only [hcase]
    constructor <;> simp [fillCell_none]
  · exfalso
    have ha : a ∈ iotAgg iot.rows := List.mem_of_find?_eq_some hcase
    have heq : a.date = d0.date := by
      have := List.find?_some hcase
      simpa using this
    apply hmem
    simp only [hcase]
    simpa [heq] using iotAgg_date_mem ha

/-- Witness for the amended C2 at a concrete input whose only IoT reading
is on another date (and has no footfall/temperature values, so the merged
column is all-missing and the row simply stays missing). -/
theorem claim2_amended_iot_mean_fill_witness :
    (⟨⟨⟨⟨1, 1, 5, 1, 10, "FR", 5⟩, none, none, none, false⟩, 0, 0⟩, none, none⟩
        : MergedRow3).footfall
      = colMean ((iotJoin [⟨⟨⟨1, 1, 5, 1, 10, "FR", 5⟩, none, none, none, false⟩, 0, 0⟩]
          [⟨3, none, none, 3⟩]).map (·.footfall)) ∧
    (⟨⟨⟨⟨1, 1, 5, 1, 10, "FR", 5⟩, none, none, none, false⟩, 0, 0⟩, none, none⟩
        : MergedRow3).temperature
      = colMean ((iotJoin [⟨⟨⟨1, 1, 5, 1, 10, "FR", 5⟩, none, none, none, false⟩, 0, 0⟩]
          [⟨3, none, none, 3⟩]).map (·.temperature)) :=
  claim2_amended_iot_mean_fill
    [⟨⟨⟨1, 1, 5, 1, 10, "FR", 5⟩, none, none, none, false⟩, 0, 0⟩]
    ⟨true, [⟨3, none, none, 3⟩]⟩ rfl _ (by decide) (by decide)

/-- Claim C3 documents a code bug: `normalize_numeric` detects a currency
column only by `'$' in str(df[col].iloc[0])`, so a column whose cell is
`"€99"` never reaches `clean_currency` (whose regex does strip `€`) and is
sent to `pd.to_numeric(..., errors='coerce')`, which turns it into the
missing sentinel instead of the claimed `99.0`.  The dollar half of the
claim does hold: `"$1,234.50"` is stripped and parses to `1234.50`. -/
theorem claim3_currency_stripping_code_bug :
    normalizeNumeric [("total_amount", Column.objCol [some (OVal.vstr "€99")])]
        ["total_amount"]
      = [("total_amount", Column.numCol [none])] ∧
    parseFloat "€99" = none ∧
    normalizeNumericCol (Column.objCol [some (OVal.vstr "$1,234.50")])
      = Column.numCol [parseFloat (stripCurrency "$1,234.50")] ∧
    stripCurrency "$1,234.50" = "1234.50" ∧
    parseFloat "1234.50" = some ((2469 : ℚ) / 2) := by
  refine ⟨by decide, by decide, rfl, by decide, ?_⟩
  rw [show parseFloat "1234.50"
      = some ((1 : ℚ) * ((digitsVal ['1', '2', '3', '4'] : ℚ)
          + (digitsVal ['5', '0'] : ℚ) / ((10 : ℚ) ^ (2 : ℕ)))) from rfl]
  rw [show digitsVal ['1', '2', '3', '4'] = 1234 from rfl,
    show digitsVal ['5', '0'] = 50 from rfl]
  norm_num

end SmartRetail
